import Mathlib

/-
Shallow embedding of the OpenSK flash syscall driver
(src/kernel/h1_syscalls/src/opensk_syscall.rs) from tock-on-titan.

The driver mediates raw NOR-flash access for user processes: it validates
write/erase arguments, enforces a single-outstanding-operation admission
policy (the `waiting` cell), decomposes writes into hardware-safe chunks
(no chunk may straddle a 64-word boundary, no chunk may exceed 32 words),
and routes asynchronous hardware completions back to the requesting
process's registered callback.

Modelling conventions:
  - `usize` values are `Nat` (no subtraction/overflow issue is reachable on
    the validated paths; `Nat` truncated subtraction mirrors the source in
    the places it occurs, which are all guarded).
  - An `AppSlice<Shared, u8>` is its byte contents, a `List Nat`.
  - A `Callback` is modelled by its presence (`Bool`); scheduling a callback
    appends `(appid, status)` to the `sched` log.
  - The hardware flash capability is modelled by an `inflight` cell (the
    single operation the hardware is currently performing, if any) and a
    `calls` log of every hardware call ever issued; `flash.write` and
    `flash.erase` return SUCCESS (submission accepted).
  - `ptr & WORD_MASK` and `ptr & PAGE_MASK` are `ptr % WORD_SIZE` and
    `ptr % PAGE_SIZE` (both sizes are powers of two, masks are size-1).
  - `Grant::enter` always finds the process's (lazily default-initialized)
    record: `apps` is a total function with default records.
-/

namespace OpenskFlash

def WORD_SIZE : Nat := 4

def PAGE_SIZE : Nat := 2048

def FLASH_START : Nat := 0x40000

def MAX_WORD_WRITES : Nat := 2

def MAX_PAGE_ERASES : Nat := 10000

def MAX_WRITE_LENGTH : Nat := 32

def WEIRD_SIZE : Nat := 64

/-- Return codes of the Tock kernel that this driver uses. -/
inductive ReturnCode where
  | SUCCESS
  | FAIL
  | EBUSY
  | EINVAL
  | ENOSUPPORT
  | SuccessWithValue (value : Nat)
  deriving DecidableEq, Repr

/-- WORD::from_ne_bytes on each 4-byte chunk of a byte list (little-endian,
the native order of the target); incomplete trailing chunks are dropped,
mirroring the zip in `write_block` which fills exactly `data_length` words. -/
def bytesToWords : List Nat → List Nat
  | b0 :: b1 :: b2 :: b3 :: rest =>
      (b0 + 256 * (b1 + 256 * (b2 + 256 * b3))) :: bytesToWords rest
  | _ => []

/-- The driver's `WriteState`: pending-write state retained between chunks.
`ptr` and `offset` are in words, `slice` is the process's shared bytes. -/
structure WriteState where
  ptr : Nat
  slice : List Nat
  offset : Nat
  deriving DecidableEq, Repr

/-- A call issued to the hardware flash capability. -/
inductive HwCall where
  | write (target : Nat) (data : List Nat)
  | erase (page : Nat)
  deriving DecidableEq, Repr

/-- The per-process grant record `App`. -/
structure App where
  callback : Bool
  slice : Option (List Nat)
  deriving DecidableEq, Repr

/-- The `#[derive(Default)]` record a process starts with. -/
def App.default : App := { callback := false, slice := none }

/-- The driver state (`OpenskSyscall` cells) together with the modelled
hardware (`inflight`, `calls`) and callback-scheduling (`sched`) context. -/
structure Sys where
  waiting : Option Nat
  writing : Option WriteState
  apps : Nat → App
  inflight : Option HwCall
  calls : List HwCall
  sched : List (Nat × ReturnCode)

/-- The initial state: empty cells, default records, idle hardware. -/
def initSys : Sys :=
  { waiting := none, writing := none, apps := fun _ => App.default,
    inflight := none, calls := [], sched := [] }

/-- Replace one process's grant record. -/
def Sys.updateApp (s : Sys) (a : Nat) (r : App) : Sys :=
  { s with apps := fun i => if i = a then r else s.apps i }

/-- OpenskSyscall::write_block: compute the next chunk's length (bounded by
the distance to the next 64-word boundary and by 32 words), stage the
chunk's words, advance the cursor, retain the pending-write state, and
issue the hardware write. -/
def write_block (s : Sys) (state : WriteState) : ReturnCode × Sys :=
  let max_length :=
    min (WEIRD_SIZE - (state.ptr + state.offset) % WEIRD_SIZE) MAX_WRITE_LENGTH
  let data_length := min (state.slice.length / WORD_SIZE - state.offset) max_length
  let data :=
    bytesToWords ((state.slice.drop (state.offset * WORD_SIZE)).take
      (data_length * WORD_SIZE))
  let target := state.ptr + state.offset - FLASH_START / WORD_SIZE
  let state2 := { state with offset := state.offset + data_length }
  (ReturnCode.SUCCESS,
    { s with
      writing := some state2,
      inflight := some (HwCall.write target data),
      calls := s.calls ++ [HwCall.write target data] })

/-- OpenskSyscall::write_slice: validate address and length alignment, then
start chunking at word offset `ptr / WORD_SIZE`, cursor 0. -/
def write_slice (s : Sys) (p : Nat) (slice : List Nat) : ReturnCode × Sys :=
  if p < FLASH_START ∨ p % WORD_SIZE ≠ 0 ∨ slice.length % WORD_SIZE ≠ 0 then
    (ReturnCode.EINVAL, s)
  else
    write_block s { ptr := p / WORD_SIZE, slice := slice, offset := 0 }

/-- OpenskSyscall::erase_page: validate address, then issue one hardware
erase of the zero-based page index. -/
def erase_page (s : Sys) (p : Nat) : ReturnCode × Sys :=
  if p < FLASH_START ∨ p % PAGE_SIZE ≠ 0 then
    (ReturnCode.EINVAL, s)
  else
    let target := (p - FLASH_START) / PAGE_SIZE
    (ReturnCode.SUCCESS,
      { s with
        inflight := some (HwCall.erase target),
        calls := s.calls ++ [HwCall.erase target] })

/-- OpenskSyscall::done: take the waiting process id; if one was held and
that process has a registered callback, schedule it with the status. -/
def done (s : Sys) (status : ReturnCode) : Sys :=
  match s.waiting with
  | none => s
  | some appid =>
      let s2 := { s with waiting := none }
      if (s2.apps appid).callback then
        { s2 with sched := s2.sched ++ [(appid, status)] }
      else s2

/-- Driver::subscribe: subscribe_num 0 registers/replaces the callback. -/
def subscribe (s : Sys) (subscribe_num : Nat) (callback : Bool) (appid : Nat) :
    ReturnCode × Sys :=
  match subscribe_num with
  | 0 => (ReturnCode.SUCCESS,
      s.updateApp appid { s.apps appid with callback := callback })
  | _ => (ReturnCode.ENOSUPPORT, s)

/-- Driver::allow: allow_num 0 registers/replaces/revokes the shared region. -/
def allow (s : Sys) (appid : Nat) (allow_num : Nat) (slice : Option (List Nat)) :
    ReturnCode × Sys :=
  match allow_num with
  | 0 => (ReturnCode.SUCCESS,
      s.updateApp appid { s.apps appid with slice := slice })
  | _ => (ReturnCode.ENOSUPPORT, s)

/-- Driver::command: cmd 0 is a presence check; cmd 1 queries configuration
constants; cmd 2 starts a write (taking the process's shared slice, checking
the length argument, checking admission, then validating and chunking);
cmd 3 starts a page erase (checking the length argument, checking admission,
then validating and issuing). -/
def command (s : Sys) (cmd arg0 arg1 appid : Nat) : ReturnCode × Sys :=
  match cmd with
  | 0 => (ReturnCode.SUCCESS, s)
  | 1 =>
      match arg0 with
      | 0 => (ReturnCode.SuccessWithValue WORD_SIZE, s)
      | 1 => (ReturnCode.SuccessWithValue PAGE_SIZE, s)
      | 2 => (ReturnCode.SuccessWithValue MAX_WORD_WRITES, s)
      | 3 => (ReturnCode.SuccessWithValue MAX_PAGE_ERASES, s)
      | _ => (ReturnCode.EINVAL, s)
  | 2 =>
      match (s.apps appid).slice with
      | none => (ReturnCode.EINVAL, s)
      | some slice =>
          let s2 := s.updateApp appid { s.apps appid with slice := none }
          if arg1 ≠ slice.length then (ReturnCode.EINVAL, s2)
          else if s2.waiting.isSome then (ReturnCode.EBUSY, s2)
          else write_slice { s2 with waiting := some appid } arg0 slice
  | 3 =>
      if arg1 ≠ PAGE_SIZE then (ReturnCode.EINVAL, s)
      else if s.waiting.isSome then (ReturnCode.EBUSY, s)
      else erase_page { s with waiting := some appid } arg0
  | _ => (ReturnCode.ENOSUPPORT, s)

/-- Client::write_done: take the pending-write state (`unwrap`: `none` is a
driver panic, modelled as `Option.none`); on failure or an exhausted region,
finalize through `done`; otherwise issue the next chunk. -/
def write_done (s : Sys) (status : ReturnCode) : Option Sys :=
  match s.writing with
  | none => none
  | some state =>
      let s2 := { s with writing := none }
      if status ≠ ReturnCode.SUCCESS ∨
          state.offset = state.slice.length / WORD_SIZE then
        some (done s2 status)
      else
        some (write_block s2 state).2

/-- Client::erase_done: finalize through `done`. -/
def erase_done (s : Sys) (status : ReturnCode) : Sys :=
  done s status

/-- Hardware completion removes the in-flight operation before the client
callback runs. -/
def clearInflight (s : Sys) : Sys :=
  { s with inflight := none }

/-- One driver entry point firing: a syscall by some process, or a hardware
completion (enabled only when the matching operation is in flight). -/
inductive Step : Sys → Sys → Prop where
  | subscribeStep (s : Sys) (n : Nat) (cb : Bool) (a : Nat) :
      Step s (subscribe s n cb a).2
  | allowStep (s : Sys) (a n : Nat) (sl : Option (List Nat)) :
      Step s (allow s a n sl).2
  | commandStep (s : Sys) (c a0 a1 a : Nat) :
      Step s (command s c a0 a1 a).2
  | writeDoneStep (s s' : Sys) (status : ReturnCode) (t : Nat) (d : List Nat)
      (h : s.inflight = some (HwCall.write t d))
      (h2 : write_done (clearInflight s) status = some s') :
      Step s s'
  | eraseDoneStep (s : Sys) (status : ReturnCode) (p : Nat)
      (h : s.inflight = some (HwCall.erase p)) :
      Step s (erase_done (clearInflight s) status)

/-- States reachable from the initial state by driver entry points. -/
inductive Reachable : Sys → Prop where
  | init : Reachable initSys
  | step {s s' : Sys} : Reachable s → Step s s' → Reachable s'

theorem bytesToWords_length (l : List Nat) :
    (bytesToWords l).length = l.length / 4 := by
  induction l using bytesToWords.induct with
  | case1 b0 b1 b2 b3 rest ih =>
      simp only [bytesToWords, List.length_cons, ih]
      omega
  | case2 l h =>
      rcases l with _ | ⟨b0, _ | ⟨b1, _ | ⟨b2, _ | ⟨b3, rest⟩⟩⟩⟩
      · simp [bytesToWords]
      · simp [bytesToWords]
      · simp [bytesToWords]
      · simp [bytesToWords]
      · exact absurd rfl (h b0 b1 b2 b3 rest)

theorem chunk_data_length (sl : List Nat) (off dl : Nat)
    (halign : sl.length % 4 = 0) (hdl : dl ≤ sl.length / 4 - off) :
    (bytesToWords ((sl.drop (off * 4)).take (dl * 4))).length = dl := by
  rw [bytesToWords_length]
  simp only [List.length_take, List.length_drop]
  omega

/-- C1: every chunk the driver hands to the hardware write primitive stays
within a single 64-word-aligned block (the first and last word of the chunk
have the same index divided by 64) and never exceeds 32 words. -/
theorem write_block_chunk_in_one_block (s : Sys) (st : WriteState)
    (hoff : st.offset < st.slice.length / WORD_SIZE)
    (halign : st.slice.length % WORD_SIZE = 0) :
    ∃ data,
      (write_block s st).2.inflight =
        some (HwCall.write (st.ptr + st.offset - FLASH_START / WORD_SIZE) data) ∧
      1 ≤ data.length ∧ data.length ≤ 32 ∧
      (st.ptr + st.offset) / 64 = (st.ptr + st.offset + data.length - 1) / 64 := by
  refine ⟨_, rfl, ?_, ?_, ?_⟩ <;>
    rw [show WORD_SIZE = 4 from rfl] at * <;>
    rw [chunk_data_length _ _ _ halign (by omega)] <;>
    rw [show WEIRD_SIZE = 64 from rfl, show MAX_WRITE_LENGTH = 32 from rfl] <;>
    omega

/-- C1 witness: a concrete one-word write chunk at the flash base. -/
theorem write_block_chunk_in_one_block_w :
    ((0 : Nat) < ([1, 2, 3, 4] : List Nat).length / WORD_SIZE) ∧
    (([1, 2, 3, 4] : List Nat).length % WORD_SIZE = 0) ∧
    (∃ data,
      (write_block initSys ⟨0x10000, [1, 2, 3, 4], 0⟩).2.inflight =
        some (HwCall.write (0x10000 + 0 - FLASH_START / WORD_SIZE) data) ∧
      1 ≤ data.length ∧ data.length ≤ 32 ∧
      (0x10000 + 0) / 64 = (0x10000 + 0 + data.length - 1) / 64) :=
  ⟨by decide, by decide,
    write_block_chunk_in_one_block initSys ⟨0x10000, [1, 2, 3, 4], 0⟩
      (by decide) (by decide)⟩

/-- C2: the chunk issued from cursor position `p = ptr + offset` carries
exactly `min (min (64 - p % 64) 32) (words remaining)` words, and the
pending-write state retained at the moment the hardware write is issued
has the cursor advanced by exactly that count. -/
theorem write_block_chunk_length_and_cursor (s : Sys) (st : WriteState)
    (halign : st.slice.length % WORD_SIZE = 0)
    (hoff : st.offset ≤ st.slice.length / WORD_SIZE) :
    ∃ data,
      (write_block s st).2.calls =
        s.calls ++ [HwCall.write (st.ptr + st.offset - FLASH_START / WORD_SIZE) data] ∧
      data.length =
        min (min (WEIRD_SIZE - (st.ptr + st.offset) % WEIRD_SIZE) MAX_WRITE_LENGTH)
          (st.slice.length / WORD_SIZE - st.offset) ∧
      (write_block s st).2.writing =
        some { st with offset := st.offset + data.length } ∧
      (write_block s st).2.inflight =
        some (HwCall.write (st.ptr + st.offset - FLASH_START / WORD_SIZE) data) := by
  have hcode :
      (bytesToWords ((st.slice.drop (st.offset * WORD_SIZE)).take
        ((min (st.slice.length / WORD_SIZE - st.offset)
          (min (WEIRD_SIZE - (st.ptr + st.offset) % WEIRD_SIZE) MAX_WRITE_LENGTH))
            * WORD_SIZE))).length =
      min (st.slice.length / WORD_SIZE - st.offset)
        (min (WEIRD_SIZE - (st.ptr + st.offset) % WEIRD_SIZE) MAX_WRITE_LENGTH) := by
    rw [show WORD_SIZE = 4 from rfl] at *
    exact chunk_data_length _ _ _ halign (by omega)
  refine ⟨_, rfl, ?_, ?_, rfl⟩
  · rw [hcode]
    rw [show WEIRD_SIZE = 64 from rfl, show MAX_WRITE_LENGTH = 32 from rfl]
    omega
  · show _ = some { st with offset := st.offset + _ }
    rw [hcode]
    rfl

/-- C2 witness: a two-word write chunk at the flash base. -/
theorem write_block_chunk_length_and_cursor_w :
    (([1, 2, 3, 4, 5, 6, 7, 8] : List Nat).length % WORD_SIZE = 0) ∧
    ((0 : Nat) ≤ ([1, 2, 3, 4, 5, 6, 7, 8] : List Nat).length / WORD_SIZE) ∧
    (∃ data,
      (write_block initSys ⟨0x10000, [1, 2, 3, 4, 5, 6, 7, 8], 0⟩).2.calls =
        [] ++ [HwCall.write (0x10000 + 0 - FLASH_START / WORD_SIZE) data] ∧
      data.length =
        min (min (WEIRD_SIZE - (0x10000 + 0) % WEIRD_SIZE) MAX_WRITE_LENGTH)
          (([1, 2, 3, 4, 5, 6, 7, 8] : List Nat).length / WORD_SIZE - 0) ∧
      (write_block initSys ⟨0x10000, [1, 2, 3, 4, 5, 6, 7, 8], 0⟩).2.writing =
        some { ptr := 0x10000, slice := [1, 2, 3, 4, 5, 6, 7, 8],
               offset := 0 + data.length } ∧
      (write_block initSys ⟨0x10000, [1, 2, 3, 4, 5, 6, 7, 8], 0⟩).2.inflight =
        some (HwCall.write (0x10000 + 0 - FLASH_START / WORD_SIZE) data)) :=
  ⟨by decide, by decide,
    write_block_chunk_length_and_cursor initSys ⟨0x10000, [1, 2, 3, 4, 5, 6, 7, 8], 0⟩
      (by decide) (by decide)⟩

/-- C7: from an idle driver, an erase command with an address below the
flash base, a non-page-aligned address, or a length other than one page
returns invalid-argument and issues no hardware call; with valid arguments
it issues exactly one erase of page `(p - FLASH_START) / PAGE_SIZE`. -/
theorem erase_command_validation (s : Sys) (appid p len : Nat)
    (hidle : s.waiting = none) :
    ((p < FLASH_START ∨ p % PAGE_SIZE ≠ 0 ∨ len ≠ PAGE_SIZE) →
      (command s 3 p len appid).1 = ReturnCode.EINVAL ∧
      (command s 3 p len appid).2.calls = s.calls) ∧
    (FLASH_START ≤ p → p % PAGE_SIZE = 0 → len = PAGE_SIZE →
      (command s 3 p len appid).2.calls =
        s.calls ++ [HwCall.erase ((p - FLASH_START) / PAGE_SIZE)] ∧
      (command s 3 p len appid).2.inflight =
        some (HwCall.erase ((p - FLASH_START) / PAGE_SIZE))) := by
  constructor
  · intro hviol
    by_cases hlen : len = PAGE_SIZE
    · have haddr : p < FLASH_START ∨ p % PAGE_SIZE ≠ 0 := by tauto
      subst hlen
      simp only [command, hidle]
      rw [if_neg (by simp), if_neg (by simp)]
      simp only [erase_page]
      rw [if_pos haddr]
      exact ⟨rfl, rfl⟩
    · simp only [command]
      rw [if_pos hlen]
      exact ⟨rfl, rfl⟩
  · intro hge hal hlen
    subst hlen
    simp only [command, hidle]
    rw [if_neg (by simp), if_neg (by simp)]
    simp only [erase_page]
    rw [if_neg (by omega)]
    exact ⟨rfl, rfl⟩

/-- C7 witness: an erase of the first page at the flash base, from idle. -/
theorem erase_command_validation_w :
    initSys.waiting = none ∧
    (((0x40000 : Nat) < FLASH_START ∨ (0x40000 : Nat) % PAGE_SIZE ≠ 0 ∨
        (2048 : Nat) ≠ PAGE_SIZE) →
      (command initSys 3 0x40000 2048 0).1 = ReturnCode.EINVAL ∧
      (command initSys 3 0x40000 2048 0).2.calls = initSys.calls) ∧
    (FLASH_START ≤ (0x40000 : Nat) → (0x40000 : Nat) % PAGE_SIZE = 0 →
      (2048 : Nat) = PAGE_SIZE →
      (command initSys 3 0x40000 2048 0).2.calls =
        initSys.calls ++ [HwCall.erase ((0x40000 - FLASH_START) / PAGE_SIZE)] ∧
      (command initSys 3 0x40000 2048 0).2.inflight =
        some (HwCall.erase ((0x40000 - FLASH_START) / PAGE_SIZE))) :=
  ⟨rfl, (erase_command_validation initSys 0 0x40000 2048 rfl).1,
    (erase_command_validation initSys 0 0x40000 2048 rfl).2⟩

/-- C8: query-config returns word size 4 for index 0, page size 2048 for
index 1, max word writes 2 for index 2, max page erases 10000 for index 3,
invalid-argument for any other index, and never changes the state. -/
theorem query_config_constants (s : Sys) (idx arg1 appid : Nat)
    (hidx : 4 ≤ idx) :
    command s 1 0 arg1 appid = (ReturnCode.SuccessWithValue 4, s) ∧
    command s 1 1 arg1 appid = (ReturnCode.SuccessWithValue 2048, s) ∧
    command s 1 2 arg1 appid = (ReturnCode.SuccessWithValue 2, s) ∧
    command s 1 3 arg1 appid = (ReturnCode.SuccessWithValue 10000, s) ∧
    command s 1 idx arg1 appid = (ReturnCode.EINVAL, s) := by
  refine ⟨rfl, rfl, rfl, rfl, ?_⟩
  match idx, hidx with
  | n + 4, _ => rfl

/-- C8 witness: query-config at indices 0-3 and at the invalid index 4. -/
theorem query_config_constants_w :
    (4 : Nat) ≤ 4 ∧
    (command initSys 1 0 0 0 = (ReturnCode.SuccessWithValue 4, initSys) ∧
     command initSys 1 1 0 0 = (ReturnCode.SuccessWithValue 2048, initSys) ∧
     command initSys 1 2 0 0 = (ReturnCode.SuccessWithValue 2, initSys) ∧
     command initSys 1 3 0 0 = (ReturnCode.SuccessWithValue 10000, initSys) ∧
     command initSys 1 4 0 0 = (ReturnCode.EINVAL, initSys)) :=
  ⟨by decide, query_config_constants initSys 4 0 0 (by decide)⟩

/-- C9: finalization for a process with no registered callback drops the
completion status (nothing is scheduled), still clears the
outstanding-operation marker, issues no hardware call, and a subsequent
valid erase command is admitted (it reaches the hardware, not busy). -/
theorem done_no_callback_drops (s : Sys) (a p : Nat) (status : ReturnCode)
    (hwait : s.waiting = some a) (hcb : (s.apps a).callback = false)
    (hge : FLASH_START ≤ p) (hal : p % PAGE_SIZE = 0) :
    (done s status).waiting = none ∧
    (done s status).sched = s.sched ∧
    (done s status).calls = s.calls ∧
    (command (done s status) 3 p PAGE_SIZE a).1 = ReturnCode.SUCCESS := by
  have hd : done s status = { s with waiting := none } := by
    simp only [done, hwait]
    rw [show ({ s with waiting := none } : Sys).apps = s.apps from rfl, hcb]
    simp
  rw [hd]
  refine ⟨rfl, rfl, rfl, ?_⟩
  simp only [command]
  rw [if_neg (by simp), if_neg (by simp)]
  simp only [erase_page]
  rw [if_neg (by omega)]

/-- C9 witness: a finalization for process 0 with no callback registered,
followed by an erase of the page at the flash base. -/
theorem done_no_callback_drops_w :
    ({ initSys with waiting := some 0 } : Sys).waiting = some 0 ∧
    (({ initSys with waiting := some 0 } : Sys).apps 0).callback = false ∧
    FLASH_START ≤ (0x40800 : Nat) ∧ (0x40800 : Nat) % PAGE_SIZE = 0 ∧
    ((done { initSys with waiting := some 0 } ReturnCode.FAIL).waiting = none ∧
     (done { initSys with waiting := some 0 } ReturnCode.FAIL).sched =
       ({ initSys with waiting := some 0 } : Sys).sched ∧
     (done { initSys with waiting := some 0 } ReturnCode.FAIL).calls =
       ({ initSys with waiting := some 0 } : Sys).calls ∧
     (command (done { initSys with waiting := some 0 } ReturnCode.FAIL)
        3 0x40800 PAGE_SIZE 0).1 = ReturnCode.SUCCESS) :=
  ⟨rfl, rfl, by decide, by decide,
    done_no_callback_drops { initSys with waiting := some 0 } 0 0x40800
      ReturnCode.FAIL rfl rfl (by decide) (by decide)⟩

/-- C10: a write command always consumes the issuing process's shared
region, whatever it returns, so a second write by the same process without
re-registering a region returns invalid-argument. -/
theorem write_command_consumes_slice (s : Sys) (appid a0 a1 b0 b1 : Nat) :
    ((command s 2 a0 a1 appid).2.apps appid).slice = none ∧
    (command (command s 2 a0 a1 appid).2 2 b0 b1 appid).1 =
      ReturnCode.EINVAL := by
  have hnone : ((command s 2 a0 a1 appid).2.apps appid).slice = none := by
    cases hsl : (s.apps appid).slice with
    | none => simp [command, hsl]
    | some sl =>
        simp only [command, hsl]
        split_ifs with h1 h2
        · simp [Sys.updateApp]
        · simp [Sys.updateApp]
        · simp only [write_slice]
          split_ifs with h3
          · simp [Sys.updateApp]
          · simp [write_block, Sys.updateApp]
  refine ⟨hnone, ?_⟩
  generalize hT : (command s 2 a0 a1 appid).2 = t at hnone ⊢
  simp [command, hnone]

/-- An idle driver where process 0 has shared the 4-byte region [1,2,3,4]. -/
def sysShared : Sys := (allow initSys 0 0 (some [1, 2, 3, 4])).2

/-- The state after process 0 issues a write to the invalid address 0 from
`sysShared`: validation fails inside write_slice, after the marker was set. -/
def sysStuck : Sys := (command sysShared 2 0 4 0).2

/-- The state after process 0 issues a valid one-word write at the flash
base from `sysShared`: the chunk is in flight. -/
def sysBusy : Sys := (command sysShared 2 0x40000 4 0).2

/-- `sysBusy` after process 0 re-shares the region [5,6,7,8]. -/
def sysBusyShared : Sys := (allow sysBusy 0 0 (some [5, 6, 7, 8])).2

/-- C3 counterexample: from an idle driver where process 0 has shared a
4-byte region, a write command with the invalid destination address 0
returns invalid-argument and issues no hardware call, yet the shared region
has been consumed and the outstanding-operation marker has been set (and
stays set): driver and per-process state are not left unchanged. -/
theorem write_invalid_mutates_state :
    sysShared.waiting = none ∧
    (sysShared.apps 0).slice = some [1, 2, 3, 4] ∧
    (command sysShared 2 0 4 0).1 = ReturnCode.EINVAL ∧
    (command sysShared 2 0 4 0).2.calls = [] ∧
    (command sysShared 2 0 4 0).2.waiting = some 0 ∧
    ((command sysShared 2 0 4 0).2.apps 0).slice = none :=
  ⟨rfl, rfl, rfl, rfl, rfl, rfl⟩

/-- C3 (amended): a write command with invalid arguments, issued to an idle
driver, returns invalid-argument synchronously and issues zero hardware
calls, and the pending-write state is untouched; but the state is not fully
preserved: the process's shared region is always consumed, and when the
violation is in the address or alignment (checked only after admission) the
outstanding-operation marker has been set to the caller and remains set,
while a missing region or a mismatched length argument is rejected before
the marker is touched. -/
theorem write_invalid_args_amended (s : Sys) (appid p len : Nat)
    (hidle : s.waiting = none) :
    ((s.apps appid).slice = none →
      command s 2 p len appid = (ReturnCode.EINVAL, s)) ∧
    (∀ sl, (s.apps appid).slice = some sl → len ≠ sl.length →
      (command s 2 p len appid).1 = ReturnCode.EINVAL ∧
      (command s 2 p len appid).2.calls = s.calls ∧
      (command s 2 p len appid).2.inflight = s.inflight ∧
      (command s 2 p len appid).2.waiting = none ∧
      (command s 2 p len appid).2.writing = s.writing ∧
      ((command s 2 p len appid).2.apps appid).slice = none) ∧
    (∀ sl, (s.apps appid).slice = some sl → len = sl.length →
      (p < FLASH_START ∨ p % WORD_SIZE ≠ 0 ∨ sl.length % WORD_SIZE ≠ 0) →
      (command s 2 p len appid).1 = ReturnCode.EINVAL ∧
      (command s 2 p len appid).2.calls = s.calls ∧
      (command s 2 p len appid).2.inflight = s.inflight ∧
      (command s 2 p len appid).2.waiting = some appid ∧
      (command s 2 p len appid).2.writing = s.writing ∧
      ((command s 2 p len appid).2.apps appid).slice = none) := by
  refine ⟨?_, ?_, ?_⟩
  · intro hsl
    simp [command, hsl]
  · intro sl hsl hne
    simp only [command, hsl]
    rw [if_pos hne]
    exact ⟨rfl, rfl, rfl, hidle, rfl, by simp [Sys.updateApp]⟩
  · intro sl hsl hlen hviol
    subst hlen
    simp only [command, hsl]
    rw [if_neg (by simp)]
    rw [if_neg (by simp [Sys.updateApp, hidle])]
    simp only [write_slice]
    rw [if_pos hviol]
    exact ⟨rfl, rfl, rfl, rfl, rfl, by simp [Sys.updateApp]⟩

/-- C3 amended witness: the write to invalid address 0 from `sysShared`. -/
theorem write_invalid_args_amended_w :
    sysShared.waiting = none ∧
    (∀ sl, (sysShared.apps 0).slice = some sl → (4 : Nat) = sl.length →
      ((0 : Nat) < FLASH_START ∨ (0 : Nat) % WORD_SIZE ≠ 0 ∨
        sl.length % WORD_SIZE ≠ 0) →
      (command sysShared 2 0 4 0).1 = ReturnCode.EINVAL ∧
      (command sysShared 2 0 4 0).2.calls = sysShared.calls ∧
      (command sysShared 2 0 4 0).2.inflight = sysShared.inflight ∧
      (command sysShared 2 0 4 0).2.waiting = some 0 ∧
      (command sysShared 2 0 4 0).2.writing = sysShared.writing ∧
      ((command sysShared 2 0 4 0).2.apps 0).slice = none) :=
  ⟨rfl, (write_invalid_args_amended sysShared 0 0 4 rfl).2.2⟩

/-- C4 counterexample: with a write in flight for process 0 and a fresh
4-byte region shared, a second write command returns busy yet consumes the
shared region (a state mutation), and a second write whose length argument
does not match the region returns invalid-argument rather than busy. -/
theorem busy_write_mutates_state :
    sysBusyShared.waiting = some 0 ∧
    sysBusyShared.inflight.isSome = true ∧
    (sysBusyShared.apps 0).slice = some [5, 6, 7, 8] ∧
    (command sysBusyShared 2 0x40000 4 0).1 = ReturnCode.EBUSY ∧
    ((command sysBusyShared 2 0x40000 4 0).2.apps 0).slice = none ∧
    (command sysBusyShared 2 0x40000 8 0).1 = ReturnCode.EINVAL :=
  ⟨rfl, rfl, rfl, rfl, rfl, rfl⟩

/-- C4 (amended): while the outstanding-operation marker is set, an erase
command whose length equals the page size returns busy with no state change
and no hardware call; a write command whose process has a shared region of
matching length returns busy and issues no hardware call, leaving the
marker, the pending-write state and every other driver cell unchanged,
except that the issuing process's shared region is consumed. -/
theorem busy_rejection_amended (s : Sys) (w appid p len : Nat)
    (hbusy : s.waiting = some w) :
    (len = PAGE_SIZE → command s 3 p len appid = (ReturnCode.EBUSY, s)) ∧
    (∀ sl, (s.apps appid).slice = some sl → len = sl.length →
      (command s 2 p len appid).1 = ReturnCode.EBUSY ∧
      (command s 2 p len appid).2.waiting = s.waiting ∧
      (command s 2 p len appid).2.writing = s.writing ∧
      (command s 2 p len appid).2.inflight = s.inflight ∧
      (command s 2 p len appid).2.calls = s.calls ∧
      (command s 2 p len appid).2.sched = s.sched ∧
      ((command s 2 p len appid).2.apps appid).slice = none ∧
      ((command s 2 p len appid).2.apps appid).callback =
        (s.apps appid).callback ∧
      (∀ b, b ≠ appid → (command s 2 p len appid).2.apps b = s.apps b)) := by
  constructor
  · intro hlen
    subst hlen
    simp [command, hbusy]
  · intro sl hsl hlen
    subst hlen
    simp only [command, hsl]
    rw [if_neg (by simp)]
    rw [if_pos (by simp [Sys.updateApp, hbusy])]
    refine ⟨rfl, rfl, rfl, rfl, rfl, rfl, by simp [Sys.updateApp],
      by simp [Sys.updateApp], ?_⟩
    intro b hb
    simp [Sys.updateApp, hb]

/-- C4 amended witness: a second write while `sysBusyShared` is busy. -/
theorem busy_rejection_amended_w :
    sysBusyShared.waiting = some 0 ∧
    (∀ sl, (sysBusyShared.apps 0).slice = some sl → (4 : Nat) = sl.length →
      (command sysBusyShared 2 0x40000 4 0).1 = ReturnCode.EBUSY ∧
      (command sysBusyShared 2 0x40000 4 0).2.waiting = sysBusyShared.waiting ∧
      (command sysBusyShared 2 0x40000 4 0).2.writing = sysBusyShared.writing ∧
      (command sysBusyShared 2 0x40000 4 0).2.inflight = sysBusyShared.inflight ∧
      (command sysBusyShared 2 0x40000 4 0).2.calls = sysBusyShared.calls ∧
      (command sysBusyShared 2 0x40000 4 0).2.sched = sysBusyShared.sched ∧
      ((command sysBusyShared 2 0x40000 4 0).2.apps 0).slice = none ∧
      ((command sysBusyShared 2 0x40000 4 0).2.apps 0).callback =
        (sysBusyShared.apps 0).callback ∧
      (∀ b, b ≠ 0 → (command sysBusyShared 2 0x40000 4 0).2.apps b =
        sysBusyShared.apps b)) :=
  ⟨rfl, (busy_rejection_amended sysBusyShared 0 0 0x40000 4 rfl).2⟩

/-- C5: the code violates the claimed reachability invariant: a write
command that fails address validation (share a 4-byte region, then write to
address 0 with length 4) leaves the outstanding-operation marker set with
no hardware operation in flight, in a state reachable from the initial
state, so non-empty marker does not imply an operation in flight. -/
theorem marker_set_without_inflight_reachable :
    Reachable sysStuck ∧ sysStuck.waiting = some 0 ∧
    sysStuck.inflight = none ∧ sysStuck.writing = none ∧
    sysStuck.calls = [] := by
  refine ⟨?_, rfl, rfl, rfl, rfl⟩
  have h1 : Reachable sysShared :=
    Reachable.step Reachable.init (Step.allowStep initSys 0 0 (some [1, 2, 3, 4]))
  exact Reachable.step h1 (Step.commandStep sysShared 2 0 4 0)

/-- C6: on a write-chunk completion, a non-success status or a cursor that
has reached the end of the region finalizes: the pending-write state is
dropped, the marker cleared, no further chunk is issued, and exactly one
callback is scheduled with that status when one is registered (none
otherwise); any other completion issues exactly one further chunk from the
retained pending-write state, scheduling no callback. -/
theorem write_done_routing (s : Sys) (st : WriteState) (status : ReturnCode)
    (a : Nat) (hw : s.writing = some st) (hwait : s.waiting = some a) :
    ((status ≠ ReturnCode.SUCCESS ∨ st.offset = st.slice.length / WORD_SIZE) →
      ∃ t, write_done s status = some t ∧
        t.waiting = none ∧ t.writing = none ∧
        t.calls = s.calls ∧ t.inflight = s.inflight ∧
        ((s.apps a).callback = true → t.sched = s.sched ++ [(a, status)]) ∧
        ((s.apps a).callback = false → t.sched = s.sched)) ∧
    (status = ReturnCode.SUCCESS → st.offset ≠ st.slice.length / WORD_SIZE →
      write_done s status = some (write_block { s with writing := none } st).2 ∧
      (write_block { s with writing := none } st).2.waiting = s.waiting ∧
      (write_block { s with writing := none } st).2.sched = s.sched ∧
      (write_block { s with writing := none } st).2.calls.length =
        s.calls.length + 1 ∧
      (write_block { s with writing := none } st).2.writing =
        some { st with offset := st.offset + min (st.slice.length / WORD_SIZE - st.offset) (min (WEIRD_SIZE - (st.ptr + st.offset) % WEIRD_SIZE) MAX_WRITE_LENGTH) }) := by
  constructor
  · intro hfin
    have hwd : write_done s status =
        some (done { s with writing := none } status) := by
      simp only [write_done, hw]
      rw [if_pos hfin]
    cases hcb : (s.apps a).callback with
    | true =>
        have hd : done { s with writing := none } status =
            { s with writing := none, waiting := none, sched := s.sched ++ [(a, status)] } := by
          simp [done, hwait, hcb]
        rw [hwd, hd]
        exact ⟨_, rfl, rfl, rfl, rfl, rfl, fun _ => rfl,
          fun hc => absurd hc (by simp)⟩
    | false =>
        have hd : done { s with writing := none } status =
            { s with writing := none, waiting := none } := by
          simp [done, hwait, hcb]
        rw [hwd, hd]
        exact ⟨_, rfl, rfl, rfl, rfl, rfl,
          fun hc => absurd hc (by simp), fun _ => rfl⟩
  · intro hst hoff
    have hwd : write_done s status =
        some (write_block { s with writing := none } st).2 := by
      simp only [write_done, hw]
      rw [if_neg (by simp [hst, hoff])]
    exact ⟨hwd, rfl, rfl, by simp [write_block], rfl⟩

/-- C6 witness: a failed chunk completion for process 0 with a registered
callback, on a pending write with one word left. -/
theorem write_done_routing_w :
    ({ initSys with
        writing := some ⟨0x10000, [1, 2, 3, 4, 5, 6, 7, 8], 1⟩,
        waiting := some 0,
        apps := fun _ => { callback := true, slice := none } } : Sys).writing =
      some ⟨0x10000, [1, 2, 3, 4, 5, 6, 7, 8], 1⟩ ∧
    ({ initSys with
        writing := some ⟨0x10000, [1, 2, 3, 4, 5, 6, 7, 8], 1⟩,
        waiting := some 0,
        apps := fun _ => { callback := true, slice := none } } : Sys).waiting =
      some 0 ∧
    ((ReturnCode.FAIL ≠ ReturnCode.SUCCESS ∨
        (1 : Nat) = ([1, 2, 3, 4, 5, 6, 7, 8] : List Nat).length / WORD_SIZE) →
      ∃ t, write_done
          { initSys with
            writing := some ⟨0x10000, [1, 2, 3, 4, 5, 6, 7, 8], 1⟩,
            waiting := some 0,
            apps := fun _ => { callback := true, slice := none } }
          ReturnCode.FAIL = some t ∧
        t.waiting = none ∧ t.writing = none ∧
        t.calls = [] ∧ t.inflight = none ∧
        ((true : Bool) = true → t.sched = [] ++ [(0, ReturnCode.FAIL)]) ∧
        ((true : Bool) = false → t.sched = [])) :=
  ⟨rfl, rfl, by
    have h := (write_done_routing
      { initSys with
        writing := some ⟨0x10000, [1, 2, 3, 4, 5, 6, 7, 8], 1⟩,
        waiting := some 0,
        apps := fun _ => { callback := true, slice := none } }
      ⟨0x10000, [1, 2, 3, 4, 5, 6, 7, 8], 1⟩ ReturnCode.FAIL 0 rfl rfl).1
    exact h⟩

end OpenskFlash
